import Mathlib

/-!
Verification of the rcon-cli protocol engine (src/rconmsg.cc, src/rconmsg.hh,
src/rcon.cc) against its specification.

Bytes are modelled as natural numbers; packet buffers as `List Nat`.  Where the
C++ source indexes a raw `uint8_t *` buffer, the model reads `List.getD` under
explicit length guards, and a dedicated `oob` result marks the places where the
source reads past the end of the caller's buffer (undefined behaviour in C++).
-/

namespace Rcon

namespace Protocol

/-- One shift-and-conditionally-xor step of the reflected CRC-32 with
polynomial 0xEDB88320, as performed by zlib's `crc32` (linked via `-lz` in the
Makefile and called by `Message::decode` and `Message::calculateCrc`). -/
def crcStep (c : Nat) : Nat :=
  if c % 2 = 1 then (c / 2) ^^^ 0xEDB88320 else c / 2

/-- Folding one input byte into the CRC state: xor the byte in, then run eight
bit steps. -/
def crcByte (c b : Nat) : Nat :=
  crcStep (crcStep (crcStep (crcStep (crcStep (crcStep (crcStep (crcStep (c ^^^ b))))))))

/-- zlib's `crc32(0L, buf, len)`: the standard CRC-32 (initial value
0xFFFFFFFF, reflected polynomial 0xEDB88320, final xor with 0xFFFFFFFF) over a
byte sequence. -/
def crc32 (bytes : List Nat) : Nat :=
  (bytes.foldl crcByte 0xFFFFFFFF) ^^^ 0xFFFFFFFF

/-- The closed set of message variants of `rconmsg.hh` (classes `Login`,
`LoginResponse`, `Command`, `CommandResponse`, `CommandPartialResponse`,
`ServerMessage`, `ServerAck`), each with exactly its own fields.  Strings are
byte lists. -/
inductive Msg
  | login (password : List Nat)
  | loginResponse (result : Nat)
  | command (seqNum : Nat) (text : List Nat)
  | commandResponse (seqNum : Nat) (text : List Nat)
  | commandPartialResponse (nofParts : Nat) (partIdx : Nat) (text : List Nat)
  | serverMessage (seqNum : Nat) (text : List Nat)
  | serverAck (seqNum : Nat)
deriving DecidableEq

/-- The bytes each `encode` override writes from offset 6 on: the marker byte
0xFF written by `Message::encodeHeader`, the type byte (`PKT_LOGIN = 0`,
`PKT_MULTI = 0`, `PKT_CMD = 1`, `PKT_SERVER = 2`), then the variant's payload
exactly as the seven `encode` methods of rconmsg.cc lay it out. -/
def encodeBody : Msg → List Nat
  | Msg.login pw => 0xff :: 0x00 :: pw
  | Msg.loginResponse r => [0xff, 0x00, r]
  | Msg.command s t => 0xff :: 0x01 :: s :: t
  | Msg.commandResponse s t => 0xff :: 0x01 :: s :: t
  | Msg.commandPartialResponse n p t => 0xff :: 0x00 :: n :: p :: t
  | Msg.serverMessage s t => 0xff :: 0x02 :: s :: t
  | Msg.serverAck s => [0xff, 0x02, s]

/-- The four bytes `Message::calculateCrc` stores at offsets 2..5: the CRC
value least-significant byte first (the source writes through a `uint32_t *`
on a little-endian target, per the Makefile's Linux build). -/
def crc32le (c : Nat) : List Nat :=
  [c % 256, c / 256 % 256, c / 65536 % 256, c / 16777216 % 256]

/-- A whole encoded packet: magic bytes 0x42 0x45 from `Message::encodeHeader`,
the little-endian CRC over bytes[6..end) from `Message::calculateCrc`, then the
marker/type/payload bytes.  (`encodeHeader`'s `std::fill(buffer+2, buffer+5, 0)`
only zeroes offsets 2..4, but `calculateCrc` overwrites all of 2..5, so the
final packet is as below for every variant.) -/
def encode (m : Msg) : List Nat :=
  0x42 :: 0x45 :: (crc32le (crc32 (encodeBody m)) ++ encodeBody m)

/-- Models `Message::extractStr`: it copies `length` bytes into a fresh char
array, writes a terminating NUL, and then builds the result via
`std::string(const char *)`, which scans for the first NUL — so the extracted
string is the payload up to (excluding) the first 0x00 byte. -/
def extractStr (payload : List Nat) : List Nat :=
  payload.takeWhile (fun b => b != 0)

/-- The 32-bit little-endian checksum stored at offsets 2..5, as read by
`Message::decode` through `(uint32_t *)(buffer + 2)`. -/
def storedCrc (b : List Nat) : Nat :=
  b.getD 2 0 + 256 * b.getD 3 0 + 65536 * b.getD 4 0 + 16777216 * b.getD 5 0

/-- The validation failures `Message::decode` can throw as
`ProtocolException`, one per throw site. -/
inductive DecodeErr
  | tooShort
  | badMagic
  | badCrc
  | badMarker
  | unknownType
deriving DecidableEq

/-- Result of `Message::decode`: a thrown `ProtocolException`, a decoded
message, or an out-of-bounds buffer read (undefined behaviour in the C++). -/
inductive DecodeResult
  | err (e : DecodeErr)
  | ok (m : Msg)
  | oob
deriving DecidableEq

/-- Models `Message::decode(buffer, length)` line by line:
length guard, magic bytes, CRC over bytes[6..end) against the stored
little-endian word at 2..5, marker byte, then the `switch` on the type byte.
In the type-0 branch a packet of length exactly 8 falls into the `else` arm,
where `extractStr(buffer + 10, length - 10)` underflows the unsigned length
and `buffer[8]`, `buffer[9]` lie past the end; likewise types 1 and 2 read
`buffer[8]` and call `extractStr(buffer + 9, length - 9)` on a length-8
packet.  Those reads past the caller's buffer are modelled as `oob`. -/
def decode (b : List Nat) : DecodeResult :=
  if b.length < 8 then DecodeResult.err DecodeErr.tooShort
  else if ¬(b.getD 0 0 = 0x42 ∧ b.getD 1 0 = 0x45) then DecodeResult.err DecodeErr.badMagic
  else if ¬(crc32 (b.drop 6) = storedCrc b) then DecodeResult.err DecodeErr.badCrc
  else if ¬(b.getD 6 0 = 0xff) then DecodeResult.err DecodeErr.badMarker
  else
    match b.getD 7 0 with
    | 0 =>
      if b.length = 9 then DecodeResult.ok (Msg.loginResponse (b.getD 8 0))
      else if b.length < 10 then DecodeResult.oob
      else DecodeResult.ok (Msg.commandPartialResponse (b.getD 8 0) (b.getD 9 0)
        (extractStr (b.drop 10)))
    | 1 =>
      if b.length < 9 then DecodeResult.oob
      else DecodeResult.ok (Msg.commandResponse (b.getD 8 0) (extractStr (b.drop 9)))
    | 2 =>
      if b.length < 9 then DecodeResult.oob
      else DecodeResult.ok (Msg.serverMessage (b.getD 8 0) (extractStr (b.drop 9)))
    | _ => DecodeResult.err DecodeErr.unknownType

/-- Models `Message::getNextSeqNum` acting on the process-wide `uint8_t
mNextSeqNum` counter (statically initialised to 0): `return mNextSeqNum++;`
yields the current value and leaves the incremented value (mod 256, the
`uint8_t` wrap) behind.  The state is passed explicitly. -/
def getNextSeqNum (ctr : Nat) : Nat × Nat :=
  (ctr % 256, (ctr + 1) % 256)

/-- Models the constructor `Command(const std::string &cmd)`: the new object's
sequence number is drawn from the allocator, its text is `cmd`.  Returns the
(seqNum, text) pair of the object together with the updated counter. -/
def commandNew (cmd : List Nat) (ctr : Nat) : (Nat × List Nat) × Nat :=
  (((getNextSeqNum ctr).1, cmd), (getNextSeqNum ctr).2)

/-- Models the copy constructor `Command(const Command &command)`: it
initialises the base with `getNextSeqNum()` — a fresh allocation — and copies
only `mCmdStr` from the source object. -/
def commandCopy (orig : Nat × List Nat) (ctr : Nat) : (Nat × List Nat) × Nat :=
  (((getNextSeqNum ctr).1, orig.2), (getNextSeqNum ctr).2)

end Protocol

/-- The exception classes of rconexception.hh (`ProtocolException`,
`SocketException`, `AppException`).  The final constructor `authError` is
Modelled from the spec: the spec's error taxonomy (§7) lists a distinct
AuthError, but the source defines no such exception class, so no code path in
the model produces it; it exists only so claims phrased in terms of AuthError
can be stated and compared with what the code throws. -/
inductive ExcClass
  | protocolException
  | socketException
  | appException
  | authError
deriving DecidableEq

/-- Final outcome of a session run: fell off the end of `RconApp::run`
cleanly, or aborted by a thrown exception of the given class and message. -/
inductive Outcome
  | finished
  | fail (k : ExcClass) (msg : String)
deriving DecidableEq

/-- The exception class of a failure outcome, if any. -/
def failClass : Outcome → Option ExcClass
  | Outcome.finished => none
  | Outcome.fail k _ => some k

/-- How the inner receive-and-dispatch loop of `RconApp::run` ended: normally
(a terminal reply type arrived) or by `receivePacket` throwing
`ProtocolException("timeout")` because no packet arrived. -/
inductive InnerEnd
  | done
  | timedOut
deriving DecidableEq

/-- Observable effects of one run of the inner reply loop: texts passed to the
output sink (`log`) in order, `ServerAck` packets sent in order, the scripted
replies left unconsumed, and how the loop ended. -/
structure InnerResult where
  emitted : List (List Nat)
  acks : List Protocol.Msg
  rest : List Protocol.Msg
  status : InnerEnd
deriving DecidableEq

/-- Models the inner `do { ... } while (msgType == MSG_CMD_PART_RESP ||
msgType == MSG_SRV_MSG)` loop of `RconApp::run`.  Replies are scripted as
already-decoded messages; an empty script models `receivePacket` finding no
data before its 500 ms timeout and throwing.  `MSG_CMD_RESP` logs its text and
is terminal; `MSG_CMD_PART_RESP` logs its text and continues; `MSG_SRV_MSG`
logs its text, sends a `ServerAck` with the same sequence number, and
continues; any other type does nothing and is terminal (the `switch` default
falls through and the loop condition fails). -/
def innerLoop : List Protocol.Msg → InnerResult
  | [] => ⟨[], [], [], InnerEnd.timedOut⟩
  | m :: rest =>
    match m with
    | Protocol.Msg.commandPartialResponse _ _ t =>
      let r := innerLoop rest
      ⟨t :: r.emitted, r.acks, r.rest, r.status⟩
    | Protocol.Msg.serverMessage q t =>
      let r := innerLoop rest
      ⟨t :: r.emitted, Protocol.Msg.serverAck q :: r.acks, r.rest, r.status⟩
    | Protocol.Msg.commandResponse _ t => ⟨[t], [], rest, InnerEnd.done⟩
    | _ => ⟨[], [], rest, InnerEnd.done⟩

/-- Observable effects of a whole session run: every packet sent in order,
every text handed to the output sink in order, and the outcome. -/
structure RunResult where
  sent : List Protocol.Msg
  emitted : List (List Nat)
  outcome : Outcome
deriving DecidableEq

/-- The sentinel "quit" as command-input bytes. -/
def quitBytes : List Nat := [113, 117, 105, 116]

/-- The sentinel "exit" as command-input bytes. -/
def exitBytes : List Nat := [101, 120, 105, 116]

/-- Models the outer `do { ... } while (interactive)` command loop of
`RconApp::run`.  `cmds` scripts the input source (interactive `std::cin`
reads, or the single argv command in non-interactive mode); exhaustion of the
script ends the session like the sentinel does.  A sentinel input breaks out
before anything is sent.  Otherwise a `Command` is built (allocating a
sequence number from `ctr`), sent, and the inner loop runs; if the inner loop
timed out the session aborts with `ProtocolException("timeout")`, and in
non-interactive mode the outer loop runs exactly once. -/
def commandLoop (interactive : Bool) : List (List Nat) → List Protocol.Msg → Nat → RunResult
  | [], _, _ => ⟨[], [], Outcome.finished⟩
  | c :: cs, replies, ctr =>
    if c = quitBytes ∨ c = exitBytes then ⟨[], [], Outcome.finished⟩
    else
      let seq := (Protocol.getNextSeqNum ctr).1
      let ctr1 := (Protocol.getNextSeqNum ctr).2
      let r := innerLoop replies
      match r.status with
      | InnerEnd.timedOut =>
        ⟨Protocol.Msg.command seq c :: r.acks, r.emitted,
          Outcome.fail ExcClass.protocolException "timeout"⟩
      | InnerEnd.done =>
        if interactive then
          let k := commandLoop interactive cs r.rest ctr1
          ⟨Protocol.Msg.command seq c :: (r.acks ++ k.sent), r.emitted ++ k.emitted, k.outcome⟩
        else
          ⟨Protocol.Msg.command seq c :: r.acks, r.emitted, Outcome.finished⟩

/-- Models the protocol portion of `RconApp::run`, from sending the `Login`
packet onward (flag parsing, socket setup and the password file are external
collaborators).  The reply script stands for successive `receivePacket`
results; an empty script is the timeout throw.  A first reply whose type is
not `MSG_LOGIN_RESP` throws `ProtocolException("Unexpected message
received!")`; a `LoginResponse` with result 0 throws
`ProtocolException("Wrong RCON password!")`; otherwise the command loop runs
with the sequence counter at its process-start value 0. -/
def run (password : List Nat) (interactive : Bool) (cmds : List (List Nat))
    (replies : List Protocol.Msg) : RunResult :=
  match replies with
  | [] => ⟨[Protocol.Msg.login password], [], Outcome.fail ExcClass.protocolException "timeout"⟩
  | m :: rest =>
    match m with
    | Protocol.Msg.loginResponse r =>
      if r = 0 then
        ⟨[Protocol.Msg.login password], [],
          Outcome.fail ExcClass.protocolException "Wrong RCON password!"⟩
      else
        let k := commandLoop interactive cmds rest 0
        ⟨Protocol.Msg.login password :: k.sent, k.emitted, k.outcome⟩
    | _ =>
      ⟨[Protocol.Msg.login password], [],
        Outcome.fail ExcClass.protocolException "Unexpected message received!"⟩

end Rcon

namespace Rcon.Protocol

/-- True on the variants `Message::decode` can construct: `LoginResponse`,
`CommandResponse`, `CommandPartialResponse` and `ServerMessage`. -/
def isServerToClient : Msg → Bool
  | Msg.loginResponse _ => true
  | Msg.commandResponse _ _ => true
  | Msg.commandPartialResponse _ _ _ => true
  | Msg.serverMessage _ _ => true
  | _ => false

/-- Field values representable on the wire: every byte-typed field of a text
byte below 256, text free of 0x00 bytes (which `extractStr` would cut at). -/
def textOk (t : List Nat) : Prop := ∀ x ∈ t, x < 256 ∧ x ≠ 0

/-- A server-to-client message whose fields fit the wire: byte fields below
256 and NUL-free text.  False on the client-to-server variants. -/
def wellFormedServer : Msg → Prop
  | Msg.loginResponse r => r < 256
  | Msg.commandResponse s t => s < 256 ∧ textOk t
  | Msg.commandPartialResponse n p t => n < 256 ∧ p < 256 ∧ textOk t
  | Msg.serverMessage s t => s < 256 ∧ textOk t
  | _ => False

/-- The framing checks of `Message::decode`, as the spec lists them: length at
least 8, magic bytes, checksum over bytes[6..end) matching the little-endian
word at offsets 2..5, marker 0xFF at offset 6, and a known type byte. -/
def framingOk (b : List Nat) : Prop :=
  8 ≤ b.length ∧ b.getD 0 0 = 0x42 ∧ b.getD 1 0 = 0x45 ∧
  crc32 (b.drop 6) = storedCrc b ∧ b.getD 6 0 = 0xff ∧
  (b.getD 7 0 = 0 ∨ b.getD 7 0 = 1 ∨ b.getD 7 0 = 2)

/-- An 8-byte packet of type `PKT_CMD` whose framing is valid: magic bytes,
then the little-endian CRC-32 of the bytes FF 01 (which is 2784681755), then
the marker and type byte.  No payload byte follows. -/
def pkt8cmd : List Nat := [0x42, 0x45, 27, 223, 250, 165, 0xff, 0x01]

/-- The residue of `Message::decode` once the framing checks have passed: the
`switch (buffer[7])` dispatch, phrased over the packet's body after the
marker (type byte `ty`, payload `rest`), with packet length `rest.length + 8`. -/
def decodeDispatch (ty : Nat) (rest : List Nat) : DecodeResult :=
  match ty with
  | 0 =>
    if rest.length + 8 = 9 then DecodeResult.ok (Msg.loginResponse (rest.getD 0 0))
    else if rest.length + 8 < 10 then DecodeResult.oob
    else DecodeResult.ok (Msg.commandPartialResponse (rest.getD 0 0) (rest.getD 1 0)
      (extractStr (rest.drop 2)))
  | 1 =>
    if rest.length + 8 < 9 then DecodeResult.oob
    else DecodeResult.ok (Msg.commandResponse (rest.getD 0 0) (extractStr (rest.drop 1)))
  | 2 =>
    if rest.length + 8 < 9 then DecodeResult.oob
    else DecodeResult.ok (Msg.serverMessage (rest.getD 0 0) (extractStr (rest.drop 1)))
  | _ => DecodeResult.err DecodeErr.unknownType

instance (b : List Nat) : Decidable (framingOk b) := by
  unfold framingOk
  infer_instance

instance (t : List Nat) : Decidable (textOk t) := by
  unfold textOk
  infer_instance

end Rcon.Protocol

/-!
What follows are the proofs.  Helper lemmas come first (CRC-32 value bounds,
NUL-free text extraction, and the framing reduction of `decode` over an
encoded packet); then one theorem per claim of the specification, with
counterexamples and witnesses where a claim needed amending or has
hypotheses.
-/

set_option maxRecDepth 20000

namespace Rcon.Protocol

theorem xor_lt_pow2 {x y n : Nat} (hx : x < 2 ^ n) (hy : y < 2 ^ n) : x ^^^ y < 2 ^ n := by
  have h : x ^^^ y = Nat.bitwise bne x y := rfl
  rw [h]
  exact Nat.bitwise_lt hx hy

theorem crcStep_lt {c : Nat} (h : c < 2 ^ 32) : crcStep c < 2 ^ 32 := by
  have hd : c / 2 < 2 ^ 32 := Nat.lt_of_le_of_lt (Nat.div_le_self c 2) h
  unfold crcStep
  split
  · exact xor_lt_pow2 hd (by norm_num)
  · exact hd

theorem crcByte_lt {c b : Nat} (hc : c < 2 ^ 32) (hb : b < 2 ^ 32) :
    crcByte c b < 2 ^ 32 := by
  unfold crcByte
  exact crcStep_lt (crcStep_lt (crcStep_lt (crcStep_lt (crcStep_lt (crcStep_lt
    (crcStep_lt (crcStep_lt (xor_lt_pow2 hc hb))))))))

theorem crcFold_lt (l : List Nat) (c : Nat) (hc : c < 2 ^ 32)
    (hl : ∀ x ∈ l, x < 256) : l.foldl crcByte c < 2 ^ 32 := by
  induction l generalizing c with
  | nil => simpa using hc
  | cons x xs ih =>
    simp only [List.foldl_cons]
    refine ih _ (crcByte_lt hc ?_) (fun y hy => hl y (by simp [hy]))
    exact Nat.lt_trans (hl x (by simp)) (by norm_num)

theorem crc32_lt (l : List Nat) (hl : ∀ x ∈ l, x < 256) : crc32 l < 2 ^ 32 := by
  unfold crc32
  exact xor_lt_pow2 (crcFold_lt l _ (by norm_num) hl) (by norm_num)

theorem extractStr_of_nonzero (t : List Nat) (h : ∀ x ∈ t, x ≠ 0) :
    extractStr t = t := by
  induction t with
  | nil => rfl
  | cons x xs ih =>
    have hx : (x != 0) = true := by
      have := h x (by simp)
      simp [bne_iff_ne, this]
    simp only [extractStr, List.takeWhile]
    rw [hx]
    simp only [extractStr] at ih
    simp [ih (fun y hy => h y (by simp [hy]))]

end Rcon.Protocol

namespace Rcon.Protocol

theorem decode_encode_shape (ty : Nat) (rest : List Nat)
    (hlt : crc32 (0xff :: ty :: rest) < 2 ^ 32) :
    decode (0x42 :: 0x45 :: (crc32le (crc32 (0xff :: ty :: rest)) ++ (0xff :: ty :: rest))) =
      decodeDispatch ty rest := by
  set b := 0x42 :: 0x45 :: (crc32le (crc32 (0xff :: ty :: rest)) ++ (0xff :: ty :: rest)) with hb
  have hlen : b.length = rest.length + 8 := by
    rw [hb]; simp [crc32le]
  have hcrc : crc32 (b.drop 6) = storedCrc b := by
    rw [hb]
    show crc32 (0xff :: ty :: rest) =
      crc32 (0xff :: ty :: rest) % 256 +
        256 * (crc32 (0xff :: ty :: rest) / 256 % 256) +
        65536 * (crc32 (0xff :: ty :: rest) / 65536 % 256) +
        16777216 * (crc32 (0xff :: ty :: rest) / 16777216 % 256)
    omega
  have h6 : b.getD 6 0 = 0xff := by rw [hb]; rfl
  have h7 : b.getD 7 0 = ty := by rw [hb]; rfl
  have h8 : b.getD 8 0 = rest.getD 0 0 := by rw [hb]; rfl
  have h9 : b.getD 9 0 = rest.getD 1 0 := by rw [hb]; rfl
  have hd9 : b.drop 9 = rest.drop 1 := by rw [hb]; rfl
  have hd10 : b.drop 10 = rest.drop 2 := by rw [hb]; rfl
  unfold decode
  rw [hlen, hcrc, h6, h7, h8, h9, hd9, hd10]
  rw [if_neg (by omega)]
  rw [if_neg (not_not_intro ⟨rfl, rfl⟩)]
  rw [if_neg (not_not_intro rfl)]
  rw [if_neg (not_not_intro rfl)]
  rfl

end Rcon.Protocol

namespace Rcon.Protocol

theorem mem_lt_256_cons {a : Nat} {l : List Nat} (ha : a < 256)
    (hl : ∀ x ∈ l, x < 256) : ∀ x ∈ a :: l, x < 256 := by
  intro x hx
  rcases List.mem_cons.mp hx with h | h
  · omega
  · exact hl x h

theorem dispatch_cmd (s : Nat) (t : List Nat) (hnzt : ∀ x ∈ t, x ≠ 0) :
    decodeDispatch 1 (s :: t) = DecodeResult.ok (Msg.commandResponse s t) := by
  simp only [decodeDispatch]
  rw [if_neg (by simp)]
  rw [show (s :: t).drop 1 = t from rfl, extractStr_of_nonzero t hnzt]
  rfl

theorem dispatch_srv (s : Nat) (t : List Nat) (hnzt : ∀ x ∈ t, x ≠ 0) :
    decodeDispatch 2 (s :: t) = DecodeResult.ok (Msg.serverMessage s t) := by
  simp only [decodeDispatch]
  rw [if_neg (by simp)]
  rw [show (s :: t).drop 1 = t from rfl, extractStr_of_nonzero t hnzt]
  rfl

theorem dispatch_multi (n p : Nat) (t : List Nat) (hnzt : ∀ x ∈ t, x ≠ 0) :
    decodeDispatch 0 (n :: p :: t) =
      DecodeResult.ok (Msg.commandPartialResponse n p t) := by
  simp only [decodeDispatch]
  rw [if_neg (by simp), if_neg (by simp)]
  rw [show (n :: p :: t).drop 2 = t from rfl, extractStr_of_nonzero t hnzt]
  rfl

/-- Amended claim C1. -/
theorem c1_roundtrip_amended :
    (∀ m, wellFormedServer m → decode (encode m) = DecodeResult.ok m) ∧
    (∀ s t, s < 256 → textOk t →
      decode (encode (Msg.command s t)) = DecodeResult.ok (Msg.commandResponse s t)) ∧
    (∀ s, s < 256 →
      decode (encode (Msg.serverAck s)) = DecodeResult.ok (Msg.serverMessage s [])) ∧
    (∀ pw, (∀ x ∈ pw, x < 256) →
      decode (encode (Msg.login pw)) ≠ DecodeResult.ok (Msg.login pw)) := by
  have hbyte : ∀ t : List Nat, textOk t → ∀ x ∈ t, x < 256 := by
    intro t ht x hx
    exact (ht x hx).1
  have hnz : ∀ t : List Nat, textOk t → ∀ x ∈ t, x ≠ 0 := by
    intro t ht x hx
    exact (ht x hx).2
  refine ⟨?_, ?_, ?_, ?_⟩
  · intro m hm
    cases m with
    | login pw => exact absurd hm (by simp [wellFormedServer])
    | command s t => exact absurd hm (by simp [wellFormedServer])
    | serverAck s => exact absurd hm (by simp [wellFormedServer])
    | loginResponse r =>
      have hr : r < 256 := hm
      have hlt := crc32_lt (0xff :: 0 :: [r])
        (mem_lt_256_cons (by omega) (mem_lt_256_cons (by omega)
          (mem_lt_256_cons hr (by intro x hx; cases hx))))
      exact (decode_encode_shape 0 [r] hlt).trans rfl
    | commandResponse s t =>
      obtain ⟨hs, ht⟩ := hm
      have hlt := crc32_lt (0xff :: 1 :: s :: t)
        (mem_lt_256_cons (by omega) (mem_lt_256_cons (by omega)
          (mem_lt_256_cons hs (hbyte t ht))))
      exact (decode_encode_shape 1 (s :: t) hlt).trans (dispatch_cmd s t (hnz t ht))
    | serverMessage s t =>
      obtain ⟨hs, ht⟩ := hm
      have hlt := crc32_lt (0xff :: 2 :: s :: t)
        (mem_lt_256_cons (by omega) (mem_lt_256_cons (by omega)
          (mem_lt_256_cons hs (hbyte t ht))))
      exact (decode_encode_shape 2 (s :: t) hlt).trans (dispatch_srv s t (hnz t ht))
    | commandPartialResponse n p t =>
      obtain ⟨hn, hp, ht⟩ := hm
      have hlt := crc32_lt (0xff :: 0 :: n :: p :: t)
        (mem_lt_256_cons (by omega) (mem_lt_256_cons (by omega)
          (mem_lt_256_cons hn (mem_lt_256_cons hp (hbyte t ht)))))
      exact (decode_encode_shape 0 (n :: p :: t) hlt).trans (dispatch_multi n p t (hnz t ht))
  · intro s t hs ht
    have hlt := crc32_lt (0xff :: 1 :: s :: t)
      (mem_lt_256_cons (by omega) (mem_lt_256_cons (by omega)
        (mem_lt_256_cons hs (hbyte t ht))))
    exact (decode_encode_shape 1 (s :: t) hlt).trans (dispatch_cmd s t (hnz t ht))
  · intro s hs
    have hlt := crc32_lt (0xff :: 2 :: [s])
      (mem_lt_256_cons (by omega) (mem_lt_256_cons (by omega)
        (mem_lt_256_cons hs (by intro x hx; cases hx))))
    exact (decode_encode_shape 2 [s] hlt).trans rfl
  · intro pw hpw
    have hlt := crc32_lt (0xff :: 0 :: pw)
      (mem_lt_256_cons (by omega) (mem_lt_256_cons (by omega) hpw))
    have h := decode_encode_shape 0 pw hlt
    intro hcontra
    rw [show decode (encode (Msg.login pw)) = decodeDispatch 0 pw from h] at hcontra
    rcases pw with _ | ⟨a, _ | ⟨c, pw2⟩⟩
    · exact DecodeResult.noConfusion hcontra
    · simp [decodeDispatch] at hcontra
    · simp only [decodeDispatch] at hcontra
      rw [if_neg (by simp), if_neg (by simp)] at hcontra
      exact Msg.noConfusion (DecodeResult.ok.inj hcontra)

end Rcon.Protocol

namespace Rcon.Protocol

/-- Amended claim C2. -/
theorem c2_dispatch_amended :
    ∀ b : List Nat, framingOk b → 9 ≤ b.length →
      ((b.getD 7 0 = 0 ∧ b.length = 9) →
        decode b = DecodeResult.ok (Msg.loginResponse (b.getD 8 0))) ∧
      ((b.getD 7 0 = 0 ∧ 9 < b.length) →
        decode b = DecodeResult.ok (Msg.commandPartialResponse (b.getD 8 0) (b.getD 9 0)
          ((b.drop 10).takeWhile (fun x => x != 0)))) ∧
      (b.getD 7 0 = 1 →
        decode b = DecodeResult.ok (Msg.commandResponse (b.getD 8 0)
          ((b.drop 9).takeWhile (fun x => x != 0)))) ∧
      (b.getD 7 0 = 2 →
        decode b = DecodeResult.ok (Msg.serverMessage (b.getD 8 0)
          ((b.drop 9).takeWhile (fun x => x != 0)))) := by
  intro b hf h9
  obtain ⟨hlen, h0, h1, hcrc, h6, h7⟩ := hf
  refine ⟨?_, ?_, ?_, ?_⟩
  · rintro ⟨ht, hl9⟩
    unfold decode
    rw [if_neg (by omega), if_neg (not_not_intro ⟨h0, h1⟩), if_neg (not_not_intro hcrc),
      if_neg (not_not_intro h6), ht]
    split
    all_goals first
      | omega
      | (rw [if_pos hl9])
  · rintro ⟨ht, hl9⟩
    unfold decode
    rw [if_neg (by omega), if_neg (not_not_intro ⟨h0, h1⟩), if_neg (not_not_intro hcrc),
      if_neg (not_not_intro h6), ht]
    split
    all_goals first
      | omega
      | (rw [if_neg (by omega), if_neg (by omega)]; rfl)
  · intro ht
    unfold decode
    rw [if_neg (by omega), if_neg (not_not_intro ⟨h0, h1⟩), if_neg (not_not_intro hcrc),
      if_neg (not_not_intro h6), ht]
    split
    all_goals first
      | omega
      | (rw [if_neg (by omega)]; rfl)
  · intro ht
    unfold decode
    rw [if_neg (by omega), if_neg (not_not_intro ⟨h0, h1⟩), if_neg (not_not_intro hcrc),
      if_neg (not_not_intro h6), ht]
    split
    all_goals first
      | omega
      | (rw [if_neg (by omega)]; rfl)

/-- Claim C2 as stated is false: a framed type-1 packet whose payload is the
single byte 0x00 decodes with text cut at the NUL, not text = bytes[9..]. -/
theorem c2_counterexample :
    framingOk (encode (Msg.commandResponse 0 [0])) ∧
    (encode (Msg.commandResponse 0 [0])).getD 7 0 = 1 ∧
    decode (encode (Msg.commandResponse 0 [0])) ≠
      DecodeResult.ok (Msg.commandResponse ((encode (Msg.commandResponse 0 [0])).getD 8 0)
        ((encode (Msg.commandResponse 0 [0])).drop 9)) := by
  refine ⟨by decide, by decide, by decide⟩

/-- Witness for the amended claim C2 at a concrete framed packet. -/
theorem c2_dispatch_witness :
    decode (encode (Msg.serverMessage 7 [65])) =
      DecodeResult.ok (Msg.serverMessage ((encode (Msg.serverMessage 7 [65])).getD 8 0)
        (((encode (Msg.serverMessage 7 [65])).drop 9).takeWhile (fun x => x != 0))) :=
  (c2_dispatch_amended (encode (Msg.serverMessage 7 [65])) (by decide) (by decide)).2.2.2 (by decide)

end Rcon.Protocol

namespace Rcon.Protocol

/-- Claim C1 as stated fails: an encoded `ServerAck` does not decode back to a
`ServerAck`; it comes back as a `ServerMessage` with empty text. -/
theorem c1_counterexample :
    decode (encode (Msg.serverAck 3)) ≠ DecodeResult.ok (Msg.serverAck 3) ∧
    decode (encode (Msg.serverAck 3)) = DecodeResult.ok (Msg.serverMessage 3 []) := by
  refine ⟨by decide, by decide⟩

/-- Witness for the amended claim C1 at a concrete message. -/
theorem c1_roundtrip_witness :
    decode (encode (Msg.commandPartialResponse 2 1 [104, 105])) =
      DecodeResult.ok (Msg.commandPartialResponse 2 1 [104, 105]) :=
  c1_roundtrip_amended.1 (Msg.commandPartialResponse 2 1 [104, 105])
    ⟨by decide, by decide, by decide⟩

/-- Claim C3's missing case: this 8-byte type-1 packet passes every framing
check listed by the claim, yet `decode` neither throws nor returns a message;
it reads past the end of the buffer. -/
theorem c3_wellframed_len8_no_message :
    framingOk pkt8cmd ∧ pkt8cmd.length = 8 ∧ decode pkt8cmd = DecodeResult.oob := by
  refine ⟨by decide, by decide, by decide⟩

/-- Claim C4's failing case: encoding a `Login` with empty password gives a
valid 8-byte type-0 packet, and decoding it reads out of bounds (`buffer[8]`
and an unsigned-underflow length passed to `extractStr`). -/
theorem c4_oob_read :
    framingOk (encode (Msg.login [])) ∧ (encode (Msg.login [])).length = 8 ∧
    decode (encode (Msg.login [])) = DecodeResult.oob := by
  refine ⟨by decide, by decide, by decide⟩

/-- Claim C5's failing case: a `CommandResponse` whose payload is 41 00 42
decodes with text cut at the first 0x00 byte instead of the whole payload. -/
theorem c5_nul_truncation :
    decode (encode (Msg.commandResponse 0 [0x41, 0x00, 0x42])) ≠
      DecodeResult.ok (Msg.commandResponse 0 [0x41, 0x00, 0x42]) ∧
    decode (encode (Msg.commandResponse 0 [0x41, 0x00, 0x42])) =
      DecodeResult.ok (Msg.commandResponse 0 [0x41]) := by
  refine ⟨by decide, by decide⟩

/-- Claim C8: the encoding of Login("secret"), byte for byte, with the
concrete CRC-32 of FF 00 73 65 63 72 65 74 in little-endian order at
offsets 2..5. -/
theorem c8_login_secret_bytes :
    encode (Msg.login [0x73, 0x65, 0x63, 0x72, 0x65, 0x74]) =
      [0x42, 0x45] ++ crc32le (crc32 [0xff, 0x00, 0x73, 0x65, 0x63, 0x72, 0x65, 0x74]) ++
        [0xff, 0x00, 0x73, 0x65, 0x63, 0x72, 0x65, 0x74] ∧
    crc32le (crc32 [0xff, 0x00, 0x73, 0x65, 0x63, 0x72, 0x65, 0x74]) = [201, 144, 9, 174] := by
  refine ⟨by decide, by decide⟩

/-- Claim C9: whatever `decode` returns without failing is one of the four
server-to-client variants. -/
theorem c9_decode_server_variants :
    ∀ (b : List Nat) (m : Msg), decode b = DecodeResult.ok m →
      isServerToClient m = true := by
  intro b m h
  unfold decode at h
  repeat' split at h
  all_goals first
    | exact DecodeResult.noConfusion h
    | (cases h; rfl)

/-- Witness for claim C9 at a concrete decoded packet. -/
theorem c9_witness : isServerToClient (Msg.loginResponse 1) = true :=
  c9_decode_server_variants (encode (Msg.loginResponse 1)) (Msg.loginResponse 1) (by decide)

/-- Claim C10: the `Command` copy constructor takes its sequence number from
the allocator counter (then bumped), not from the copied object, so whenever
the original's number differs from the counter the copy gets a different
sequence number; in particular copying a just-allocated `Command` always
changes the number. -/
theorem c10_command_copy :
    ∀ (s : Nat) (t : List Nat) (ctr : Nat),
      commandCopy (s, t) ctr = ((ctr % 256, t), (ctr + 1) % 256) ∧
      (s ≠ ctr % 256 → (commandCopy (s, t) ctr).1.1 ≠ s) ∧
      (∀ cmd : List Nat,
        ((commandCopy (commandNew cmd ctr).1 (commandNew cmd ctr).2).1).1 ≠
          ((commandNew cmd ctr).1).1) := by
  intro s t ctr
  refine ⟨rfl, ?_, ?_⟩
  · intro h
    simp only [commandCopy, getNextSeqNum]
    omega
  · intro cmd
    simp only [commandCopy, commandNew, getNextSeqNum]
    omega

/-- Witness for claim C10 at concrete values. -/
theorem c10_witness :
    commandCopy (5, [99]) 0 = ((0, [99]), 1) ∧
    (commandCopy (5, [99]) 0).1.1 ≠ 5 ∧
    ((commandCopy (commandNew [99] 0).1 (commandNew [99] 0).2).1).1 ≠
      ((commandNew [99] 0).1).1 :=
  ⟨(c10_command_copy 5 [99] 0).1, (c10_command_copy 5 [99] 0).2.1 (by decide),
    (c10_command_copy 5 [99] 0).2.2 [99]⟩

end Rcon.Protocol

namespace Rcon

/-- Claim C6 as stated is false on the code: on a rejected login the session
fails with a `ProtocolException` ("Wrong RCON password!"); the source has no
Auth error class at all. -/
theorem c6_counterexample :
    failClass (run [] false [] [Protocol.Msg.loginResponse 0]).outcome =
      some ExcClass.protocolException ∧
    ExcClass.protocolException ≠ ExcClass.authError := by
  refine ⟨by decide, by decide⟩

/-- Amended claim C6: result 0 aborts the session with
ProtocolError("Wrong RCON password!") before anything else is sent; any
non-zero result proceeds into the command loop (the next packet sent is the
first Command); a first reply that is not a LoginResponse aborts with
ProtocolError("Unexpected message received!"). -/
theorem c6_login_flow :
    ∀ (pw : List Nat) (i : Bool) (cmds : List (List Nat)) (rest : List Protocol.Msg),
      (run pw i cmds (Protocol.Msg.loginResponse 0 :: rest) =
        ⟨[Protocol.Msg.login pw], [],
          Outcome.fail ExcClass.protocolException "Wrong RCON password!"⟩) ∧
      (∀ (r : Nat) (c : List Nat) (cs : List (List Nat)), r ≠ 0 →
        ¬(c = quitBytes ∨ c = exitBytes) →
        (run pw i (c :: cs) (Protocol.Msg.loginResponse r :: rest)).sent.take 2 =
          [Protocol.Msg.login pw, Protocol.Msg.command 0 c]) ∧
      (∀ m : Protocol.Msg, (∀ r, m ≠ Protocol.Msg.loginResponse r) →
        run pw i cmds (m :: rest) =
          ⟨[Protocol.Msg.login pw], [],
            Outcome.fail ExcClass.protocolException "Unexpected message received!"⟩) := by
  intro pw i cmds rest
  refine ⟨by simp [run], ?_, ?_⟩
  · intro r c cs hr hc
    simp only [run]
    rw [if_neg hr]
    simp only [commandLoop]
    rw [if_neg hc]
    rcases hst : (innerLoop rest).status <;> cases i <;>
      simp [hst, Protocol.getNextSeqNum]
  · intro m hm
    cases m with
    | loginResponse r => exact absurd rfl (hm r)
    | login p => rfl
    | command s t => rfl
    | commandResponse s t => rfl
    | commandPartialResponse n p t => rfl
    | serverMessage s t => rfl
    | serverAck s => rfl

/-- Witness for the amended claim C6 at concrete scripts. -/
theorem c6_login_flow_witness :
    run [] false [] [Protocol.Msg.loginResponse 0] =
      ⟨[Protocol.Msg.login []], [],
        Outcome.fail ExcClass.protocolException "Wrong RCON password!"⟩ ∧
    (run [] false [[97]] [Protocol.Msg.loginResponse 1]).sent.take 2 =
      [Protocol.Msg.login [], Protocol.Msg.command 0 [97]] ∧
    run [] false [] [Protocol.Msg.serverAck 5] =
      ⟨[Protocol.Msg.login []], [],
        Outcome.fail ExcClass.protocolException "Unexpected message received!"⟩ :=
  ⟨(c6_login_flow [] false [] []).1,
    (c6_login_flow [] false [] []).2.1 1 [97] [] (by decide) (by decide),
    (c6_login_flow [] false [] []).2.2 (Protocol.Msg.serverAck 5)
      (fun r h => Protocol.Msg.noConfusion h)⟩

/-- Claim C7: if, while awaiting a command reply, the next reply is a
ServerMessage with sequence number q, the session emits its text first, the
very next packet sent after the Command is a ServerAck with the same q, and
the rest of the session is unchanged (the inner loop continues). -/
theorem c7_server_ack :
    ∀ (pw c : List Nat) (cs : List (List Nat)) (q : Nat) (t : List Nat)
      (rest : List Protocol.Msg) (i : Bool),
      ¬(c = quitBytes ∨ c = exitBytes) →
      (run pw i (c :: cs) (Protocol.Msg.loginResponse 1 ::
          Protocol.Msg.serverMessage q t :: rest)).emitted =
        t :: (run pw i (c :: cs) (Protocol.Msg.loginResponse 1 :: rest)).emitted ∧
      (run pw i (c :: cs) (Protocol.Msg.loginResponse 1 ::
          Protocol.Msg.serverMessage q t :: rest)).sent =
        Protocol.Msg.login pw :: Protocol.Msg.command 0 c :: Protocol.Msg.serverAck q ::
          ((run pw i (c :: cs) (Protocol.Msg.loginResponse 1 :: rest)).sent.drop 2) ∧
      (run pw i (c :: cs) (Protocol.Msg.loginResponse 1 ::
          Protocol.Msg.serverMessage q t :: rest)).outcome =
        (run pw i (c :: cs) (Protocol.Msg.loginResponse 1 :: rest)).outcome := by
  intro pw c cs q t rest i hc
  simp only [run, commandLoop, innerLoop]
  rw [if_neg hc]
  rcases hst : (innerLoop rest).status <;> cases i <;>
    simp [hst, hc, Protocol.getNextSeqNum]

end Rcon

namespace Rcon

/-- Witness for claim C7 at a concrete session script. -/
theorem c7_server_ack_witness :
    (run [112] false [[97]] [Protocol.Msg.loginResponse 1,
        Protocol.Msg.serverMessage 7 [104], Protocol.Msg.commandResponse 0 [111]]).emitted =
      [104] :: (run [112] false [[97]] [Protocol.Msg.loginResponse 1,
        Protocol.Msg.commandResponse 0 [111]]).emitted ∧
    (run [112] false [[97]] [Protocol.Msg.loginResponse 1,
        Protocol.Msg.serverMessage 7 [104], Protocol.Msg.commandResponse 0 [111]]).sent =
      Protocol.Msg.login [112] :: Protocol.Msg.command 0 [97] :: Protocol.Msg.serverAck 7 ::
        ((run [112] false [[97]] [Protocol.Msg.loginResponse 1,
          Protocol.Msg.commandResponse 0 [111]]).sent.drop 2) ∧
    (run [112] false [[97]] [Protocol.Msg.loginResponse 1,
        Protocol.Msg.serverMessage 7 [104], Protocol.Msg.commandResponse 0 [111]]).outcome =
      (run [112] false [[97]] [Protocol.Msg.loginResponse 1,
        Protocol.Msg.commandResponse 0 [111]]).outcome :=
  c7_server_ack [112] [97] [] 7 [104] [Protocol.Msg.commandResponse 0 [111]] false (by decide)

end Rcon
